import Mathlib

/-!
Verification development for the alpha-governor control loop
(`alpha_governor/server/main.py`).

The Python module is shallowly embedded below.  Python floats are
idealized as rationals (ℚ).  `statistics.pstdev` takes a square root,
which has no computable exact counterpart on ℚ, so every definition that
needs it is parameterized by a function `sqrtQ : ℚ → ℚ` standing for the
square root applied to the population variance; theorems either hold for
every such function or carry explicit hypotheses relating it to a real
square root at the values that occur.  Exceptions are modelled with
explicit error flags that abort processing exactly where the Python
exception would propagate, while keeping the in-place mutations already
performed (the globals `fail_counts`, `pass_counts`, `last_action_trade`,
`STATE` are mutated before any raise).  String rendering of commands
(`f"DISABLE_ENGINE {sym} ..."`, including `round(weight, 3)` and the
`:.2f` formats) is abstracted to structured command values.
-/

/-- Operating mode of the governor: `MODE = CONFIG.get("mode", "OBSERVE")`. -/
inductive Mode where
  | OBSERVE
  | ADVISE
  | ACT
deriving DecidableEq

/-- A decision passed to `emit`: either
`DISABLE_ENGINE <sym> reason=survival:<survival>_conf:<conf>` or
`ENABLE_ENGINE <sym> weight=<weight>` (the weight is the clamped value;
the display-only `round(weight, 3)` is not part of the decision). -/
inductive Cmd where
  | disable (sym : String) (survival conf : ℚ)
  | enable (sym : String) (weight : ℚ)
deriving DecidableEq

/-- Configuration loaded once from `governor.yaml`.  Field order:
`min_edge_bps`, `cost_bps`, `window`, `min_confidence`,
`disable_consecutive_windows`, `enable_consecutive_windows`,
`cooldown_trades`, `min_weight`, `max_weight`. -/
structure Config where
  min_edge_bps : ℚ
  cost_bps : ℚ
  window : Nat
  min_confidence : ℚ
  disable_consecutive_windows : Nat
  enable_consecutive_windows : Nat
  cooldown_trades : Nat
  min_weight : ℚ
  max_weight : ℚ

/-- Mutable process environment: the global `MODE`, plus whether an
`open(CMD_FILE, "a")` in `emit` would raise (an unwritable command file). -/
structure Env where
  mode : Mode
  cmdWriteFails : Bool

/-- Per-symbol entries of the global dicts `fail_counts`, `pass_counts`
and `last_action_trade` (all `defaultdict(int)`, so absent keys read 0). -/
structure SymState where
  fail_count : Nat
  pass_count : Nat
  last_action : Nat
deriving DecidableEq

/-- One value of the `STATE[sym]` dict built in `analyze`. -/
structure Snap where
  edge : ℚ
  confidence : ℚ
  survival : ℚ
  fail_count : Nat
  pass_count : Nat
  trades_since_action : Int
  can_act : Bool
  mode : Mode
  status : String
deriving DecidableEq

/-- A row of the research CSV as `analyze` consumes it.  `total_pnl` is
`none` when the field is missing or `float(...)` on it would raise. -/
structure RawTrade where
  symbol : String
  total_pnl : Option ℚ
deriving DecidableEq

/-- The module-level mutable state: `fail_counts`, `pass_counts`,
`last_action_trade` and `STATE`. -/
structure GovState where
  fail_counts : String → Nat
  pass_counts : String → Nat
  last_action_trade : String → Nat
  state : String → Option Snap

/-- All dictionaries empty, as at process start. -/
def initialGov : GovState :=
  ⟨fun _ => 0, fun _ => 0, fun _ => 0, fun _ => none⟩

/-- The per-symbol view ⟨fail_counts[sym], pass_counts[sym],
last_action_trade[sym]⟩ of the global dicts. -/
def symStateOf (g : GovState) (sym : String) : SymState :=
  ⟨g.fail_counts sym, g.pass_counts sym, g.last_action_trade sym⟩

/-- Arithmetic mean, `statistics.mean` (callers guard non-emptiness). -/
def mean (xs : List ℚ) : ℚ :=
  xs.sum / (xs.length : ℚ)

/-- Population variance with denominator N, the square of
`statistics.pstdev`. -/
def pvariance (xs : List ℚ) : ℚ :=
  ((xs.map fun x => (x - mean xs) ^ 2).sum) / (xs.length : ℚ)

/-- The epsilon `1e-9` substituted for a zero standard deviation. -/
def epsSigma : ℚ := 1 / 1000000000

/-- `compute_confidence(pnls)`: `0.0` below 5 samples, otherwise
`abs(mu / sigma)` with `sigma = statistics.pstdev(pnls) or 1e-9`.
`sqrtQ` applied to the population variance stands for `pstdev`. -/
def compute_confidence (sqrtQ : ℚ → ℚ) (pnls : List ℚ) : ℚ :=
  if pnls.length < 5 then 0
  else
    let mu := mean pnls
    let sigma0 := sqrtQ (pvariance pnls)
    let sigma := if sigma0 = 0 then epsSigma else sigma0
    |mu / sigma|

/-- Rounding to 4 decimal places used for the `STATE[sym]` display
values (`round(edge, 4)` etc.).  Python rounds half to even while `round`
here rounds half up; they agree except on exact half-ties at the fourth
decimal, which no statement below exercises. -/
def round4 (q : ℚ) : ℚ :=
  ((round (q * 10000) : ℤ) : ℚ) / 10000

/-- The enable weight `min(max_weight, max(min_weight, conf / 2.0))`. -/
def enableWeight (cfg : Config) (conf : ℚ) : ℚ :=
  min cfg.max_weight (max cfg.min_weight (conf / 2))

/-- Lines appended to `CMD_FILE`, kept structurally as a tag (`"[ADVISE]"`
or `""`) with the command. -/
def CmdLine : Type := String × Cmd

/-- `emit(cmd)`: in OBSERVE only `print`, nothing written; in ADVISE and
ACT the command is appended to `CMD_FILE` (tagged in ADVISE), and the
`open` raising is an error that propagates to the caller. -/
def emit (env : Env) (cmd : Cmd) : Except Unit (List CmdLine) :=
  match env.mode with
  | Mode.OBSERVE => Except.ok []
  | Mode.ADVISE =>
      if env.cmdWriteFails then Except.error () else Except.ok [("[ADVISE]", cmd)]
  | Mode.ACT =>
      if env.cmdWriteFails then Except.error () else Except.ok [("", cmd)]

/-- The per-symbol edge: `edge = statistics.mean(pnls) if pnls else 0.0`. -/
def edgeOf (pnls : List ℚ) : ℚ :=
  if pnls.isEmpty then 0 else mean pnls

/-- The survival margin `survival = edge - COST`. -/
def survivalOf (cfg : Config) (pnls : List ℚ) : ℚ :=
  edgeOf pnls - cfg.cost_bps

/-- The `is_failing` predicate of a symbol's window subset:
`survival < MIN_EDGE or conf < MIN_CONF`. -/
def signalFailing (cfg : Config) (sqrtQ : ℚ → ℚ) (pnls : List ℚ) : Bool :=
  decide (survivalOf cfg pnls < cfg.min_edge_bps) ||
    decide (compute_confidence sqrtQ pnls < cfg.min_confidence)

/-- Step 1 of the hysteresis update: on failure increment `fail_count`
and zero `pass_count`, on success the reverse. -/
def step1 (failing : Bool) (s : SymState) : SymState :=
  if failing then ⟨s.fail_count + 1, 0, s.last_action⟩
  else ⟨0, s.pass_count + 1, s.last_action⟩

/-- Result of the action phase of one symbol's evaluation: the (possibly
partially) mutated counters, the decisions passed to `emit`, the lines
actually written, and whether an exception propagated. -/
structure ActResult where
  st : SymState
  cmds : List Cmd
  writes : List CmdLine
  err : Bool

/-- The `pass_counts[sym] >= ENABLE_WINDOWS` branch: emit ENABLE with the
clamped weight, then reset `pass_count` and stamp `last_action`; if the
emit raises, the resets do not happen. -/
def enablePhase (cfg : Config) (env : Env) (sym : String) (conf : ℚ)
    (count : Nat) (s : SymState) : ActResult :=
  if cfg.enable_consecutive_windows ≤ s.pass_count then
    match emit env (Cmd.enable sym (enableWeight cfg conf)) with
    | Except.error _ => ⟨s, [Cmd.enable sym (enableWeight cfg conf)], [], true⟩
    | Except.ok ls =>
        ⟨⟨s.fail_count, 0, count⟩, [Cmd.enable sym (enableWeight cfg conf)], ls, false⟩
  else ⟨s, [], [], false⟩

/-- The `fail_counts[sym] >= DISABLE_WINDOWS` branch followed by the
enable branch (the two `if`s are sequential, not exclusive): emit
DISABLE, reset `fail_count`, stamp `last_action`, then run the enable
check on the updated counters; an emit raise stops mid-way. -/
def disablePhase (cfg : Config) (env : Env) (sym : String)
    (survival conf : ℚ) (count : Nat) (s : SymState) : ActResult :=
  if cfg.disable_consecutive_windows ≤ s.fail_count then
    match emit env (Cmd.disable sym survival conf) with
    | Except.error _ => ⟨s, [Cmd.disable sym survival conf], [], true⟩
    | Except.ok ls =>
        ⟨(enablePhase cfg env sym conf count ⟨0, s.pass_count, count⟩).st,
         Cmd.disable sym survival conf ::
           (enablePhase cfg env sym conf count ⟨0, s.pass_count, count⟩).cmds,
         ls ++ (enablePhase cfg env sym conf count ⟨0, s.pass_count, count⟩).writes,
         (enablePhase cfg env sym conf count ⟨0, s.pass_count, count⟩).err⟩
  else enablePhase cfg env sym conf count s

/-- Result of evaluating one symbol inside `analyze`'s per-symbol loop. -/
structure StepResult where
  st : SymState
  snap : Snap
  cmds : List Cmd
  writes : List CmdLine
  err : Bool

/-- The `STATE[sym]` entry written by one symbol's evaluation: displayed
values are rounded to 4 decimals, the counters are the post-step-1 ones
(recorded before any threshold reset). -/
def snapOf (cfg : Config) (env : Env) (sqrtQ : ℚ → ℚ) (count : Nat)
    (pnls : List ℚ) (s : SymState) : Snap :=
  ⟨round4 (edgeOf pnls), round4 (compute_confidence sqrtQ pnls),
   round4 (survivalOf cfg pnls),
   (step1 (signalFailing cfg sqrtQ pnls) s).fail_count,
   (step1 (signalFailing cfg sqrtQ pnls) s).pass_count,
   (count : Int) - (s.last_action : Int),
   decide ((cfg.cooldown_trades : Int) ≤ (count : Int) - (s.last_action : Int)),
   env.mode,
   if signalFailing cfg sqrtQ pnls then "WARN" else "PASS"⟩

/-- The body of `analyze`'s `for sym, pnls in buckets.items():` loop for
one symbol: compute edge / confidence / survival, apply step 1, record
`STATE[sym]`, then — only when `trades_since_action >= COOLDOWN` — run
the disable and enable threshold checks. -/
def stepSym (cfg : Config) (env : Env) (sqrtQ : ℚ → ℚ) (count : Nat)
    (sym : String) (pnls : List ℚ) (s : SymState) : StepResult :=
  if (cfg.cooldown_trades : Int) ≤ (count : Int) - (s.last_action : Int) then
    ⟨(disablePhase cfg env sym (survivalOf cfg pnls) (compute_confidence sqrtQ pnls)
        count (step1 (signalFailing cfg sqrtQ pnls) s)).st,
     snapOf cfg env sqrtQ count pnls s,
     (disablePhase cfg env sym (survivalOf cfg pnls) (compute_confidence sqrtQ pnls)
        count (step1 (signalFailing cfg sqrtQ pnls) s)).cmds,
     (disablePhase cfg env sym (survivalOf cfg pnls) (compute_confidence sqrtQ pnls)
        count (step1 (signalFailing cfg sqrtQ pnls) s)).writes,
     (disablePhase cfg env sym (survivalOf cfg pnls) (compute_confidence sqrtQ pnls)
        count (step1 (signalFailing cfg sqrtQ pnls) s)).err⟩
  else ⟨step1 (signalFailing cfg sqrtQ pnls) s, snapOf cfg env sqrtQ count pnls s,
        [], [], false⟩

/-- `load_trades()`: the rows of the research CSV, or `[]` when opening
or iterating the file raises (the `try`/`except` returns `[]`).  The
source is `none` exactly when such a read failure occurs. -/
def load_trades (src : Option (List RawTrade)) : List RawTrade :=
  src.getD []

/-- Append a pnl to its symbol's bucket, creating the bucket at the end
on first occurrence (Python dict insertion order). -/
def addToBucket (bs : List (String × List ℚ)) (sym : String) (p : ℚ) :
    List (String × List ℚ) :=
  match bs with
  | [] => [(sym, [p])]
  | (s, ps) :: rest =>
      if s = sym then (s, ps ++ [p]) :: rest
      else (s, ps) :: addToBucket rest sym p

/-- The bucket-building loop `for t in trades[-WINDOW:]`: an unreadable
`total_pnl` makes `float(t["total_pnl"])` raise, aborting `analyze`
before any global state is touched. -/
def buildBuckets : List RawTrade → List (String × List ℚ) →
    Except Unit (List (String × List ℚ))
  | [], acc => Except.ok acc
  | t :: ts, acc =>
      match t.total_pnl with
      | none => Except.error ()
      | some p => buildBuckets ts (addToBucket acc t.symbol p)

/-- Result of one `analyze()` call: the module state afterwards, the
decisions passed to `emit`, the command-file lines written, and whether
an exception propagated out of `analyze`. -/
structure AnalyzeResult where
  g : GovState
  cmds : List Cmd
  writes : List CmdLine
  err : Bool

/-- Write one symbol's evaluation results back into the global dicts. -/
def updateGov (g : GovState) (sym : String) (st : SymState) (snap : Snap) :
    GovState :=
  ⟨fun x => if x = sym then st.fail_count else g.fail_counts x,
   fun x => if x = sym then st.pass_count else g.pass_counts x,
   fun x => if x = sym then st.last_action else g.last_action_trade x,
   fun x => if x = sym then some snap else g.state x⟩

/-- The per-symbol loop of `analyze`, in bucket order: each symbol's
mutations land in the global dicts as they happen, and an exception from
one symbol's evaluation aborts the loop there (later symbols are not
reached), exactly like the uncaught Python exception. -/
def runBuckets (cfg : Config) (env : Env) (sqrtQ : ℚ → ℚ) (count : Nat) :
    List (String × List ℚ) → GovState → AnalyzeResult
  | [], g => ⟨g, [], [], false⟩
  | (sym, pnls) :: rest, g =>
      let r := stepSym cfg env sqrtQ count sym pnls (symStateOf g sym)
      let g1 := updateGov g sym r.st r.snap
      if r.err then ⟨g1, r.cmds, r.writes, true⟩
      else
        let rr := runBuckets cfg env sqrtQ count rest g1
        ⟨rr.g, r.cmds ++ rr.cmds, r.writes ++ rr.writes, rr.err⟩

/-- `analyze()`: load the trades, return immediately when fewer than
`WINDOW` rows exist, otherwise bucket the last `WINDOW` rows by symbol
and evaluate every symbol.  The slice `trades[-WINDOW:]` is
`List.drop (length - WINDOW)`; the two agree for every window size the
guard lets through except the degenerate `WINDOW = 0` on a non-empty
list (`trades[-0:]` is the whole list), which no statement below
exercises with a non-empty source. -/
def analyze (cfg : Config) (env : Env) (sqrtQ : ℚ → ℚ)
    (src : Option (List RawTrade)) (g : GovState) : AnalyzeResult :=
  let trades := load_trades src
  if trades.length < cfg.window then ⟨g, [], [], false⟩
  else
    match buildBuckets (trades.drop (trades.length - cfg.window)) [] with
    | Except.error _ => ⟨g, [], [], true⟩
    | Except.ok buckets => runBuckets cfg env sqrtQ trades.length buckets g

/-- Result of one iteration of the `ws` handler's loop: the state after
`analyze`, the snapshot deliveries of `broadcast` (one per connected
client; per-client send failures, which only prune the failing client,
are not modelled), and whether the loop proceeds to the next iteration
(an exception from `analyze` is caught by the handler's `except`, which
removes the client and ends the loop). -/
structure WsTick where
  g : GovState
  msgs : List (String × Mode × (String → Option Snap))
  continues : Bool

/-- One iteration of `while True: await asyncio.sleep(2); analyze();
await broadcast({"mode": MODE, "engines": STATE})`. -/
def wsTick (cfg : Config) (env : Env) (sqrtQ : ℚ → ℚ)
    (src : Option (List RawTrade)) (clients : List String)
    (g : GovState) : WsTick :=
  let r := analyze cfg env sqrtQ src g
  if r.err then ⟨r.g, [], false⟩
  else ⟨r.g, clients.map fun c => (c, env.mode, r.g.state), true⟩

/-- Successive `analyze` ticks as seen by one fixed symbol: each tick
applies `stepSym` once with that tick's total trade count and the
symbol's pnl bucket; an exception truncates the run just as it ends the
websocket loop driving `analyze`. -/
def runTicksSym (cfg : Config) (env : Env) (sqrtQ : ℚ → ℚ) (sym : String) :
    List (Nat × List ℚ) → SymState → SymState × List Cmd
  | [], s => (s, [])
  | (count, pnls) :: rest, s =>
      let r := stepSym cfg env sqrtQ count sym pnls s
      if r.err then (r.st, r.cmds)
      else
        let p := runTicksSym cfg env sqrtQ sym rest r.st
        (p.1, r.cmds ++ p.2)

/-- Recognizer for DISABLE decisions. -/
def isDisable : Cmd → Bool
  | Cmd.disable _ _ _ => true
  | Cmd.enable _ _ => false

/-- At most one of the two counters is non-zero. -/
def atMostOne (a b : Nat) : Prop := a = 0 ∨ b = 0

/-- Exactly one of the two counters is non-zero. -/
def exactlyOne (a b : Nat) : Prop := (a ≠ 0 ∧ b = 0) ∨ (a = 0 ∧ b ≠ 0)

/-! ### Helper lemmas about the emit and action phases -/

theorem emit_observe_eq (wf : Bool) (cmd : Cmd) :
    emit ⟨Mode.OBSERVE, wf⟩ cmd = Except.ok [] := rfl

theorem emit_ok_of_not_fails (env : Env) (cmd : Cmd)
    (h : env.cmdWriteFails = false) : ∃ ls, emit env cmd = Except.ok ls := by
  rcases env with ⟨m, wf⟩
  simp only at h
  subst h
  cases m <;> simp [emit]

theorem enablePhase_not_fire (cfg : Config) (env : Env) (sym : String)
    (conf : ℚ) (count : Nat) (s : SymState)
    (h : ¬ cfg.enable_consecutive_windows ≤ s.pass_count) :
    enablePhase cfg env sym conf count s = ⟨s, [], [], false⟩ := by
  simp [enablePhase, h]

theorem enablePhase_st_cases (cfg : Config) (env : Env) (sym : String)
    (conf : ℚ) (count : Nat) (s : SymState) :
    (enablePhase cfg env sym conf count s).st = s ∨
    (enablePhase cfg env sym conf count s).st = ⟨s.fail_count, 0, count⟩ := by
  unfold enablePhase
  split
  · split <;> simp
  · simp

theorem enablePhase_fail_eq (cfg : Config) (env : Env) (sym : String)
    (conf : ℚ) (count : Nat) (s : SymState) :
    (enablePhase cfg env sym conf count s).st.fail_count = s.fail_count := by
  rcases enablePhase_st_cases cfg env sym conf count s with h | h <;> rw [h]

theorem enablePhase_cmds_cases (cfg : Config) (env : Env) (sym : String)
    (conf : ℚ) (count : Nat) (s : SymState) :
    (enablePhase cfg env sym conf count s).cmds = [] ∨
    (enablePhase cfg env sym conf count s).cmds =
      [Cmd.enable sym (enableWeight cfg conf)] := by
  unfold enablePhase
  split
  · split <;> simp
  · simp

theorem enablePhase_no_disable (cfg : Config) (env : Env) (sym : String)
    (conf : ℚ) (count : Nat) (s : SymState) :
    ∀ c ∈ (enablePhase cfg env sym conf count s).cmds, isDisable c = false := by
  rcases enablePhase_cmds_cases cfg env sym conf count s with h | h <;>
    rw [h] <;> simp [isDisable]

theorem enablePhase_err_of_not_fails (cfg : Config) (env : Env) (sym : String)
    (conf : ℚ) (count : Nat) (s : SymState)
    (h : env.cmdWriteFails = false) :
    (enablePhase cfg env sym conf count s).err = false := by
  unfold enablePhase
  split
  · obtain ⟨ls, hls⟩ :=
      emit_ok_of_not_fails env (Cmd.enable sym (enableWeight cfg conf)) h
    rw [hls]
  · rfl

theorem disablePhase_not_fire (cfg : Config) (env : Env) (sym : String)
    (survival conf : ℚ) (count : Nat) (s : SymState)
    (h : ¬ cfg.disable_consecutive_windows ≤ s.fail_count) :
    disablePhase cfg env sym survival conf count s =
      enablePhase cfg env sym conf count s := by
  simp [disablePhase, h]

theorem disablePhase_st_cases (cfg : Config) (env : Env) (sym : String)
    (survival conf : ℚ) (count : Nat) (s : SymState) :
    (disablePhase cfg env sym survival conf count s).st = s ∨
    (disablePhase cfg env sym survival conf count s).st = ⟨s.fail_count, 0, count⟩ ∨
    (disablePhase cfg env sym survival conf count s).st = ⟨0, s.pass_count, count⟩ ∨
    (disablePhase cfg env sym survival conf count s).st = ⟨0, 0, count⟩ := by
  unfold disablePhase
  split
  · split
    · simp
    · rcases enablePhase_st_cases cfg env sym conf count ⟨0, s.pass_count, count⟩ with h | h <;>
        simp [h]
  · rcases enablePhase_st_cases cfg env sym conf count s with h | h <;> simp [h]

theorem enablePhase_cmds_nil_st (cfg : Config) (env : Env) (sym : String)
    (conf : ℚ) (count : Nat) (s : SymState)
    (h : (enablePhase cfg env sym conf count s).cmds = []) :
    (enablePhase cfg env sym conf count s).st = s := by
  by_cases hE : cfg.enable_consecutive_windows ≤ s.pass_count
  · unfold enablePhase at h ⊢
    rw [if_pos hE] at h ⊢
    split at h <;> simp_all
  · rw [enablePhase_not_fire cfg env sym conf count s hE]

theorem disablePhase_cmds_nil_st (cfg : Config) (env : Env) (sym : String)
    (survival conf : ℚ) (count : Nat) (s : SymState)
    (h : (disablePhase cfg env sym survival conf count s).cmds = []) :
    (disablePhase cfg env sym survival conf count s).st = s := by
  by_cases hD : cfg.disable_consecutive_windows ≤ s.fail_count
  · unfold disablePhase at h ⊢
    rw [if_pos hD] at h ⊢
    split at h <;> simp_all
  · rw [disablePhase_not_fire cfg env sym survival conf count s hD] at h ⊢
    exact enablePhase_cmds_nil_st cfg env sym conf count s h

/-! ### Lemmas about one symbol's evaluation step -/

theorem stepSym_eq_of_not_can_act (cfg : Config) (env : Env) (sqrtQ : ℚ → ℚ)
    (count : Nat) (sym : String) (pnls : List ℚ) (s : SymState)
    (h : ¬ (cfg.cooldown_trades : Int) ≤ (count : Int) - (s.last_action : Int)) :
    stepSym cfg env sqrtQ count sym pnls s =
      ⟨step1 (signalFailing cfg sqrtQ pnls) s,
       snapOf cfg env sqrtQ count pnls s, [], [], false⟩ := by
  rw [stepSym, if_neg h]

theorem stepSym_eq_of_can_act (cfg : Config) (env : Env) (sqrtQ : ℚ → ℚ)
    (count : Nat) (sym : String) (pnls : List ℚ) (s : SymState)
    (h : (cfg.cooldown_trades : Int) ≤ (count : Int) - (s.last_action : Int)) :
    stepSym cfg env sqrtQ count sym pnls s =
      ⟨(disablePhase cfg env sym (survivalOf cfg pnls)
          (compute_confidence sqrtQ pnls) count
          (step1 (signalFailing cfg sqrtQ pnls) s)).st,
       snapOf cfg env sqrtQ count pnls s,
       (disablePhase cfg env sym (survivalOf cfg pnls)
          (compute_confidence sqrtQ pnls) count
          (step1 (signalFailing cfg sqrtQ pnls) s)).cmds,
       (disablePhase cfg env sym (survivalOf cfg pnls)
          (compute_confidence sqrtQ pnls) count
          (step1 (signalFailing cfg sqrtQ pnls) s)).writes,
       (disablePhase cfg env sym (survivalOf cfg pnls)
          (compute_confidence sqrtQ pnls) count
          (step1 (signalFailing cfg sqrtQ pnls) s)).err⟩ := by
  rw [stepSym, if_pos h]

theorem step1_exactlyOne (failing : Bool) (s : SymState) :
    exactlyOne (step1 failing s).fail_count (step1 failing s).pass_count := by
  cases failing <;> simp [step1, exactlyOne]

theorem exactlyOne_atMostOne {a b : Nat} (h : exactlyOne a b) : atMostOne a b :=
  h.elim (fun h1 => Or.inr h1.2) (fun h1 => Or.inl h1.1)

/-- Shared concrete environment for closed statements: OBSERVE mode with
a healthy command file. -/
def envObserve : Env := ⟨Mode.OBSERVE, false⟩

/-- Shared degenerate square-root stand-in used by closed statements in
which the standard deviation is irrelevant (confidence windows smaller
than 5 never evaluate it). -/
def sqrtZero : ℚ → ℚ := fun _ => 0

/-- C1 (amended): at every observable point at most one of `fail_count`
and `pass_count` is non-zero, and the snapshot recorded by the tick (the
post-step-1 counters) always has exactly one non-zero; exactly one also
holds for the counters after any tick that emitted no command — but
immediately after a DISABLE or ENABLE action both counters are zero,
because step 1 already zeroed one and the action resets the other. -/
theorem counter_invariant_amended (cfg : Config) (env : Env) (sqrtQ : ℚ → ℚ)
    (count : Nat) (sym : String) (pnls : List ℚ) (s : SymState) :
    atMostOne (stepSym cfg env sqrtQ count sym pnls s).st.fail_count
      (stepSym cfg env sqrtQ count sym pnls s).st.pass_count ∧
    exactlyOne (stepSym cfg env sqrtQ count sym pnls s).snap.fail_count
      (stepSym cfg env sqrtQ count sym pnls s).snap.pass_count ∧
    ((stepSym cfg env sqrtQ count sym pnls s).cmds = [] →
      exactlyOne (stepSym cfg env sqrtQ count sym pnls s).st.fail_count
        (stepSym cfg env sqrtQ count sym pnls s).st.pass_count) := by
  by_cases h : (cfg.cooldown_trades : Int) ≤ (count : Int) - (s.last_action : Int)
  · rw [stepSym_eq_of_can_act cfg env sqrtQ count sym pnls s h]
    refine ⟨?_, step1_exactlyOne _ _, ?_⟩
    · rcases disablePhase_st_cases cfg env sym (survivalOf cfg pnls)
        (compute_confidence sqrtQ pnls) count
        (step1 (signalFailing cfg sqrtQ pnls) s) with h1 | h1 | h1 | h1 <;>
        simp only [h1]
      · exact exactlyOne_atMostOne (step1_exactlyOne _ _)
      · exact Or.inr rfl
      · exact Or.inl rfl
      · exact Or.inl rfl
    · intro hc
      simp only at hc
      rw [disablePhase_cmds_nil_st cfg env sym (survivalOf cfg pnls)
        (compute_confidence sqrtQ pnls) count
        (step1 (signalFailing cfg sqrtQ pnls) s) hc]
      exact step1_exactlyOne _ _
  · rw [stepSym_eq_of_not_can_act cfg env sqrtQ count sym pnls s h]
    exact ⟨exactlyOne_atMostOne (step1_exactlyOne _ _), step1_exactlyOne _ _,
      fun _ => step1_exactlyOne _ _⟩

/-- C1 witness: a cooldown-blocked failing tick emits nothing and leaves
exactly one counter non-zero. -/
theorem counter_invariant_amended_witness :
    exactlyOne
      (stepSym ⟨1/2, 1, 1, 0, 3, 5, 100, 1/20, 1/2⟩ envObserve sqrtZero 10 "A"
        [-5] ⟨0, 0, 0⟩).st.fail_count
      (stepSym ⟨1/2, 1, 1, 0, 3, 5, 100, 1/20, 1/2⟩ envObserve sqrtZero 10 "A"
        [-5] ⟨0, 0, 0⟩).st.pass_count := by
  refine (counter_invariant_amended _ _ _ _ _ _ _).2.2 ?_
  norm_num [stepSym, step1, signalFailing, survivalOf, edgeOf, mean,
    compute_confidence, envObserve, sqrtZero]

/-- C1 counterexample: with `disable_consecutive_windows = 1` and no
cooldown, the very first failing tick emits a DISABLE and leaves BOTH
counters at zero — refuting "exactly one of fail_count and pass_count is
non-zero at every moment, including immediately after a DISABLE". -/
theorem counter_invariant_counterexample :
    (stepSym ⟨1/2, 1, 1, 0, 1, 5, 0, 1/20, 1/2⟩ envObserve sqrtZero 1 "A" [-5]
      ⟨0, 0, 0⟩).cmds = [Cmd.disable "A" (-6) 0] ∧
    (stepSym ⟨1/2, 1, 1, 0, 1, 5, 0, 1/20, 1/2⟩ envObserve sqrtZero 1 "A" [-5]
      ⟨0, 0, 0⟩).st.fail_count = 0 ∧
    (stepSym ⟨1/2, 1, 1, 0, 1, 5, 0, 1/20, 1/2⟩ envObserve sqrtZero 1 "A" [-5]
      ⟨0, 0, 0⟩).st.pass_count = 0 ∧
    ¬ exactlyOne
      (stepSym ⟨1/2, 1, 1, 0, 1, 5, 0, 1/20, 1/2⟩ envObserve sqrtZero 1 "A" [-5]
        ⟨0, 0, 0⟩).st.fail_count
      (stepSym ⟨1/2, 1, 1, 0, 1, 5, 0, 1/20, 1/2⟩ envObserve sqrtZero 1 "A" [-5]
        ⟨0, 0, 0⟩).st.pass_count := by
  norm_num [stepSym, snapOf, step1, signalFailing, survivalOf, edgeOf, mean,
    compute_confidence, disablePhase, enablePhase, emit, envObserve, sqrtZero,
    exactlyOne]

/-- C5: when `trades_since_action < cooldown_trades` the tick emits no
DISABLE and no ENABLE for the symbol (no decision, no command-file
write, no error), while the step-1 counter update and the snapshot entry
still happen. -/
theorem cooldown_blocks_commands (cfg : Config) (env : Env) (sqrtQ : ℚ → ℚ)
    (count : Nat) (sym : String) (pnls : List ℚ) (s : SymState)
    (h : (count : Int) - (s.last_action : Int) < (cfg.cooldown_trades : Int)) :
    (stepSym cfg env sqrtQ count sym pnls s).cmds = [] ∧
    (stepSym cfg env sqrtQ count sym pnls s).writes = [] ∧
    (stepSym cfg env sqrtQ count sym pnls s).err = false ∧
    (stepSym cfg env sqrtQ count sym pnls s).st =
      step1 (signalFailing cfg sqrtQ pnls) s ∧
    (stepSym cfg env sqrtQ count sym pnls s).snap =
      snapOf cfg env sqrtQ count pnls s ∧
    (stepSym cfg env sqrtQ count sym pnls s).snap.fail_count =
      (step1 (signalFailing cfg sqrtQ pnls) s).fail_count ∧
    (stepSym cfg env sqrtQ count sym pnls s).snap.pass_count =
      (step1 (signalFailing cfg sqrtQ pnls) s).pass_count := by
  rw [stepSym_eq_of_not_can_act cfg env sqrtQ count sym pnls s (not_le.mpr h)]
  exact ⟨rfl, rfl, rfl, rfl, rfl, rfl, rfl⟩

/-- C5 witness: with cooldown 100 and only 10 trades since the last
action, a symbol whose `fail_count` already exceeds the disable
threshold still emits nothing while its counters update. -/
theorem cooldown_blocks_commands_witness :
    (stepSym ⟨1/2, 1, 1, 0, 1, 1, 100, 1/20, 1/2⟩ envObserve sqrtZero 10 "A"
      [-5] ⟨5, 0, 0⟩).cmds = [] ∧
    (stepSym ⟨1/2, 1, 1, 0, 1, 1, 100, 1/20, 1/2⟩ envObserve sqrtZero 10 "A"
      [-5] ⟨5, 0, 0⟩).st =
      step1 (signalFailing ⟨1/2, 1, 1, 0, 1, 1, 100, 1/20, 1/2⟩ sqrtZero [-5])
        ⟨5, 0, 0⟩ :=
  ⟨(cooldown_blocks_commands _ _ _ _ _ _ _ (by decide)).1,
   (cooldown_blocks_commands _ _ _ _ _ _ _ (by decide)).2.2.2.1⟩

theorem enablePhase_len_le_one (cfg : Config) (env : Env) (sym : String)
    (conf : ℚ) (count : Nat) (s : SymState) :
    (enablePhase cfg env sym conf count s).cmds.length ≤ 1 := by
  rcases enablePhase_cmds_cases cfg env sym conf count s with h | h <;> simp [h]

theorem disablePhase_len_of_pass_zero (cfg : Config) (env : Env) (sym : String)
    (survival conf : ℚ) (count : Nat) (s : SymState)
    (hp : s.pass_count = 0) (hE : 1 ≤ cfg.enable_consecutive_windows) :
    (disablePhase cfg env sym survival conf count s).cmds.length ≤ 1 := by
  by_cases hD : cfg.disable_consecutive_windows ≤ s.fail_count
  · unfold disablePhase
    rw [if_pos hD]
    split
    · simp
    · rw [enablePhase_not_fire cfg env sym conf count ⟨0, s.pass_count, count⟩
        (by simp [hp]; omega)]
      simp
  · rw [disablePhase_not_fire cfg env sym survival conf count s hD]
    exact enablePhase_len_le_one cfg env sym conf count s

/-- C10: with both consecutive-window thresholds at least 1, a symbol
never gets more than one command in one tick — in particular never both
a DISABLE and an ENABLE, since step 1 zeroes one counter before the two
threshold checks run and the post-DISABLE state has `pass_count = 0`. -/
theorem at_most_one_command_per_tick (cfg : Config) (env : Env)
    (sqrtQ : ℚ → ℚ) (count : Nat) (sym : String) (pnls : List ℚ) (s : SymState)
    (hD : 1 ≤ cfg.disable_consecutive_windows)
    (hE : 1 ≤ cfg.enable_consecutive_windows) :
    (stepSym cfg env sqrtQ count sym pnls s).cmds.length ≤ 1 := by
  by_cases h : (cfg.cooldown_trades : Int) ≤ (count : Int) - (s.last_action : Int)
  · rw [stepSym_eq_of_can_act cfg env sqrtQ count sym pnls s h]
    simp only
    cases hf : signalFailing cfg sqrtQ pnls
    · rw [disablePhase_not_fire cfg env sym (survivalOf cfg pnls)
        (compute_confidence sqrtQ pnls) count (step1 false s)
        (by simp [step1]; omega)]
      exact enablePhase_len_le_one _ _ _ _ _ _
    · exact disablePhase_len_of_pass_zero cfg env sym (survivalOf cfg pnls)
        (compute_confidence sqrtQ pnls) count (step1 true s) (by simp [step1]) hE
  · rw [stepSym_eq_of_not_can_act cfg env sqrtQ count sym pnls s h]
    simp

/-- C10 witness: a first failing tick with `disable_consecutive_windows
= 1` emits exactly one command. -/
theorem at_most_one_command_per_tick_witness :
    (stepSym ⟨1/2, 1, 1, 0, 1, 5, 0, 1/20, 1/2⟩ envObserve sqrtZero 1 "A" [-5]
      ⟨0, 0, 0⟩).cmds.length ≤ 1 :=
  at_most_one_command_per_tick _ _ _ _ _ _ _ (by decide) (by decide)

/-- C6 (amended): confidence is exactly 0.0 whenever the symbol has
fewer than 5 PnL values; with 5 or more it is |mean / sigma| where sigma
is the population standard deviation (denominator N) replaced by 1e-9
when it is exactly 0, so the denominator is never zero.  (The original
"exactly when fewer than 5" is refuted: a mean-zero window of 5 values
also has confidence 0.) -/
theorem confidence_amended (sqrtQ : ℚ → ℚ) (pnls : List ℚ)
    (h0 : sqrtQ 0 = 0) :
    (pnls.length < 5 → compute_confidence sqrtQ pnls = 0) ∧
    (5 ≤ pnls.length →
      (if sqrtQ (pvariance pnls) = 0 then epsSigma else sqrtQ (pvariance pnls)) ≠ 0 ∧
      compute_confidence sqrtQ pnls =
        |mean pnls /
          (if sqrtQ (pvariance pnls) = 0 then epsSigma
           else sqrtQ (pvariance pnls))| ∧
      (pvariance pnls = 0 →
        compute_confidence sqrtQ pnls = |mean pnls / epsSigma|)) := by
  constructor
  · intro h
    simp [compute_confidence, h]
  · intro h
    have h5 : ¬ pnls.length < 5 := by omega
    refine ⟨?_, ?_, ?_⟩
    · split
      · norm_num [epsSigma]
      · assumption
    · simp [compute_confidence, h5]
    · intro hv
      simp [compute_confidence, h5, hv, h0]

/-- C6 witness: a three-value window has confidence exactly 0. -/
theorem confidence_amended_witness :
    compute_confidence sqrtZero [1, 2, 3] = 0 :=
  (confidence_amended sqrtZero [1, 2, 3] rfl).1 (by norm_num)

/-- C6 counterexample: a window of exactly 5 PnL values with zero mean
has confidence 0.0, so "confidence equals 0.0 exactly when fewer than 5
values" fails; the square-root stand-in is exact here (variance 4,
standard deviation 2). -/
theorem confidence_five_values_counterexample :
    ([(4 : ℚ), -1, -1, -1, -1].length = 5) ∧
    pvariance [(4 : ℚ), -1, -1, -1, -1] = 4 ∧
    (fun v => if v = (4 : ℚ) then (2 : ℚ) else 0)
        (pvariance [(4 : ℚ), -1, -1, -1, -1]) ^ 2 =
      pvariance [(4 : ℚ), -1, -1, -1, -1] ∧
    compute_confidence (fun v => if v = (4 : ℚ) then (2 : ℚ) else 0)
      [(4 : ℚ), -1, -1, -1, -1] = 0 := by
  norm_num [compute_confidence, mean, pvariance, epsSigma]

theorem enablePhase_enable_mem (cfg : Config) (env : Env) (sym : String)
    (conf : ℚ) (count : Nat) (s : SymState) (sym' : String) (w : ℚ)
    (h : Cmd.enable sym' w ∈ (enablePhase cfg env sym conf count s).cmds) :
    w = enableWeight cfg conf := by
  rcases enablePhase_cmds_cases cfg env sym conf count s with hc | hc <;>
    rw [hc] at h
  · simp at h
  · simp at h
    exact h.2

theorem disablePhase_enable_mem (cfg : Config) (env : Env) (sym : String)
    (survival conf : ℚ) (count : Nat) (s : SymState) (sym' : String) (w : ℚ)
    (h : Cmd.enable sym' w ∈ (disablePhase cfg env sym survival conf count s).cmds) :
    w = enableWeight cfg conf := by
  by_cases hD : cfg.disable_consecutive_windows ≤ s.fail_count
  · unfold disablePhase at h
    rw [if_pos hD] at h
    split at h
    · simp at h
    · simp only [List.mem_cons] at h
      rcases h with h | h
      · simp at h
      · exact enablePhase_enable_mem cfg env sym conf count _ sym' w h
  · rw [disablePhase_not_fire cfg env sym survival conf count s hD] at h
    exact enablePhase_enable_mem cfg env sym conf count s sym' w h

theorem stepSym_enable_mem (cfg : Config) (env : Env) (sqrtQ : ℚ → ℚ)
    (count : Nat) (sym : String) (pnls : List ℚ) (s : SymState)
    (sym' : String) (w : ℚ)
    (h : Cmd.enable sym' w ∈ (stepSym cfg env sqrtQ count sym pnls s).cmds) :
    w = enableWeight cfg (compute_confidence sqrtQ pnls) := by
  by_cases hca : (cfg.cooldown_trades : Int) ≤ (count : Int) - (s.last_action : Int)
  · rw [stepSym_eq_of_can_act cfg env sqrtQ count sym pnls s hca] at h
    exact disablePhase_enable_mem cfg env sym (survivalOf cfg pnls)
      (compute_confidence sqrtQ pnls) count _ sym' w h
  · rw [stepSym_eq_of_not_can_act cfg env sqrtQ count sym pnls s hca] at h
    simp at h

/-- C9: every ENABLE decision a tick emits carries weight
`min(max_weight, max(min_weight, conf / 2))`, which lies in
`[min_weight, max_weight]` whenever that interval is non-empty; in
particular with confidence 100, min_weight 1/20 and max_weight 1/2 the
weight is 1/2 (clamped), not 50. -/
theorem enable_weight_clamped (cfg : Config) (env : Env) (sqrtQ : ℚ → ℚ)
    (count : Nat) (sym : String) (pnls : List ℚ) (s : SymState) :
    (∀ sym' w, Cmd.enable sym' w ∈ (stepSym cfg env sqrtQ count sym pnls s).cmds →
      w = enableWeight cfg (compute_confidence sqrtQ pnls) ∧
      (cfg.min_weight ≤ cfg.max_weight →
        cfg.min_weight ≤ w ∧ w ≤ cfg.max_weight)) ∧
    enableWeight ⟨0, 0, 0, 0, 3, 1, 0, 1/20, 1/2⟩ 100 = 1/2 := by
  constructor
  · intro sym' w h
    have hw := stepSym_enable_mem cfg env sqrtQ count sym pnls s sym' w h
    subst hw
    exact ⟨rfl, fun hmm =>
      ⟨le_min hmm (le_max_left _ _), min_le_left _ _⟩⟩
  · norm_num [enableWeight, min_def, max_def]

/-- C9 witness: a passing tick that reaches the enable threshold emits
an ENABLE whose weight is exactly the clamp of conf / 2. -/
theorem enable_weight_clamped_witness :
    Cmd.enable "A" (1/20) ∈
      (stepSym ⟨0, 0, 0, 0, 3, 1, 0, 1/20, 1/2⟩ envObserve sqrtZero 1 "A" [10]
        ⟨0, 0, 0⟩).cmds ∧
    (1/20 : ℚ) =
      enableWeight ⟨0, 0, 0, 0, 3, 1, 0, 1/20, 1/2⟩
        (compute_confidence sqrtZero [10]) := by
  have hmem : Cmd.enable "A" (1/20) ∈
      (stepSym ⟨0, 0, 0, 0, 3, 1, 0, 1/20, 1/2⟩ envObserve sqrtZero 1 "A" [10]
        ⟨0, 0, 0⟩).cmds := by
    norm_num [stepSym, step1, signalFailing, survivalOf, edgeOf, mean,
      compute_confidence, disablePhase, enablePhase, emit, enableWeight,
      min_def, max_def, envObserve, sqrtZero]
  exact ⟨hmem,
    ((enable_weight_clamped _ _ _ _ _ _ _).1 "A" (1/20) hmem).1⟩

/-! ### Lemmas for the hysteresis run (C7) -/

theorem step1_true (s : SymState) :
    step1 true s = ⟨s.fail_count + 1, 0, s.last_action⟩ := rfl

theorem step1_false (s : SymState) :
    step1 false s = ⟨0, s.pass_count + 1, s.last_action⟩ := rfl

theorem stepSym_failing_step (cfg : Config) (env : Env) (sqrtQ : ℚ → ℚ)
    (count : Nat) (sym : String) (pnls : List ℚ) (s : SymState)
    (hf : signalFailing cfg sqrtQ pnls = true)
    (hlt : s.fail_count + 1 < cfg.disable_consecutive_windows)
    (hside : 1 ≤ cfg.enable_consecutive_windows ∨ env.cmdWriteFails = false) :
    (stepSym cfg env sqrtQ count sym pnls s).err = false ∧
    (stepSym cfg env sqrtQ count sym pnls s).st.fail_count = s.fail_count + 1 ∧
    (stepSym cfg env sqrtQ count sym pnls s).st.pass_count = 0 ∧
    (∀ c ∈ (stepSym cfg env sqrtQ count sym pnls s).cmds, isDisable c = false) := by
  by_cases hca : (cfg.cooldown_trades : Int) ≤ (count : Int) - (s.last_action : Int)
  · rw [stepSym_eq_of_can_act cfg env sqrtQ count sym pnls s hca]
    simp only [hf, step1_true]
    rw [disablePhase_not_fire cfg env sym (survivalOf cfg pnls)
      (compute_confidence sqrtQ pnls) count ⟨s.fail_count + 1, 0, s.last_action⟩
      (by simp; omega)]
    rcases hside with hE | hwf
    · rw [enablePhase_not_fire cfg env sym (compute_confidence sqrtQ pnls) count
        ⟨s.fail_count + 1, 0, s.last_action⟩ (by simp; omega)]
      exact ⟨rfl, rfl, rfl, by simp⟩
    · refine ⟨enablePhase_err_of_not_fails _ _ _ _ _ _ hwf, ?_, ?_,
        enablePhase_no_disable _ _ _ _ _ _⟩
      · rw [enablePhase_fail_eq]
      · rcases enablePhase_st_cases cfg env sym (compute_confidence sqrtQ pnls)
          count ⟨s.fail_count + 1, 0, s.last_action⟩ with h1 | h1 <;> rw [h1]
  · rw [stepSym_eq_of_not_can_act cfg env sqrtQ count sym pnls s hca]
    exact ⟨rfl, by simp [hf, step1_true], by simp [hf, step1_true], by simp⟩

theorem stepSym_passing_step (cfg : Config) (env : Env) (sqrtQ : ℚ → ℚ)
    (count : Nat) (sym : String) (pnls : List ℚ) (s : SymState)
    (hp : signalFailing cfg sqrtQ pnls = false)
    (hD : 1 ≤ cfg.disable_consecutive_windows) :
    (stepSym cfg env sqrtQ count sym pnls s).st.fail_count = 0 ∧
    (∀ c ∈ (stepSym cfg env sqrtQ count sym pnls s).cmds, isDisable c = false) := by
  by_cases hca : (cfg.cooldown_trades : Int) ≤ (count : Int) - (s.last_action : Int)
  · rw [stepSym_eq_of_can_act cfg env sqrtQ count sym pnls s hca]
    simp only [hp, step1_false]
    rw [disablePhase_not_fire cfg env sym (survivalOf cfg pnls)
      (compute_confidence sqrtQ pnls) count ⟨0, s.pass_count + 1, s.last_action⟩
      (by simp; omega)]
    refine ⟨?_, enablePhase_no_disable _ _ _ _ _ _⟩
    rw [enablePhase_fail_eq]
  · rw [stepSym_eq_of_not_can_act cfg env sqrtQ count sym pnls s hca]
    exact ⟨by simp [hp, step1_false], by simp⟩

theorem runTicksSym_fail_then_pass (cfg : Config) (env : Env) (sqrtQ : ℚ → ℚ)
    (sym : String) (inputs : List (Nat × List ℚ)) (last : Nat × List ℚ)
    (s : SymState)
    (hfail : ∀ i ∈ inputs, signalFailing cfg sqrtQ i.2 = true)
    (hpass : signalFailing cfg sqrtQ last.2 = false)
    (hlt : s.fail_count + inputs.length < cfg.disable_consecutive_windows)
    (hside : 1 ≤ cfg.enable_consecutive_windows ∨ env.cmdWriteFails = false) :
    (∀ c ∈ (runTicksSym cfg env sqrtQ sym (inputs ++ [last]) s).2,
      isDisable c = false) ∧
    (runTicksSym cfg env sqrtQ sym (inputs ++ [last]) s).1.fail_count = 0 := by
  induction inputs generalizing s with
  | nil =>
    have hD : 1 ≤ cfg.disable_consecutive_windows := by
      simpa using Nat.lt_of_le_of_lt (Nat.zero_le _) hlt
    rcases last with ⟨cnt, ps⟩
    have hstep := stepSym_passing_step cfg env sqrtQ cnt sym ps s hpass hD
    simp only [List.nil_append, runTicksSym]
    split
    · exact ⟨hstep.2, hstep.1⟩
    · simpa using ⟨hstep.2, hstep.1⟩
  | cons i rest ih =>
    rcases i with ⟨cnt, ps⟩
    have hf : signalFailing cfg sqrtQ ps = true := hfail ⟨cnt, ps⟩ (by simp)
    have hlt1 : s.fail_count + 1 < cfg.disable_consecutive_windows := by
      simp only [List.length_cons] at hlt
      omega
    have hstep := stepSym_failing_step cfg env sqrtQ cnt sym ps s hf hlt1 hside
    have hrec := ih (stepSym cfg env sqrtQ cnt sym ps s).st
      (fun j hj => hfail j (List.mem_cons_of_mem _ hj))
      (by
        rw [hstep.2.1]
        simp only [List.length_cons] at hlt
        omega)
    simp only [List.cons_append, runTicksSym, hstep.1]
    simp only [Bool.false_eq_true, if_false]
    constructor
    · intro c hc
      rcases List.mem_append.mp hc with hc1 | hc1
      · exact hstep.2.2.2 c hc1
      · exact hrec.1 c hc1
    · exact hrec.2

/-- C7: a symbol starting at `fail_count = 0` that fails for exactly
`disable_threshold − 1` consecutive ticks and then passes once never
triggers a DISABLE, and its `fail_count` is back to 0 after the passing
tick.  (Side conditions: the threshold is at least 1 so the scenario is
meaningful, and either the enable threshold is at least 1 or the
command log is writable, so no tick of the scenario dies to an
unrelated enable-emit exception before the passing tick runs.) -/
theorem hysteresis_no_premature_disable (cfg : Config) (env : Env)
    (sqrtQ : ℚ → ℚ) (sym : String) (inputs : List (Nat × List ℚ))
    (last : Nat × List ℚ) (s : SymState)
    (hD : 1 ≤ cfg.disable_consecutive_windows)
    (hlen : inputs.length = cfg.disable_consecutive_windows - 1)
    (hfail : ∀ i ∈ inputs, signalFailing cfg sqrtQ i.2 = true)
    (hpass : signalFailing cfg sqrtQ last.2 = false)
    (hs : s.fail_count = 0)
    (hside : 1 ≤ cfg.enable_consecutive_windows ∨ env.cmdWriteFails = false) :
    (∀ c ∈ (runTicksSym cfg env sqrtQ sym (inputs ++ [last]) s).2,
      isDisable c = false) ∧
    (runTicksSym cfg env sqrtQ sym (inputs ++ [last]) s).1.fail_count = 0 :=
  runTicksSym_fail_then_pass cfg env sqrtQ sym inputs last s hfail hpass
    (by omega) hside

/-- C7 witness: threshold 3, two failing ticks then one passing tick;
the final fail_count is 0 (and, by the theorem, no DISABLE occurred). -/
theorem hysteresis_no_premature_disable_witness :
    (runTicksSym ⟨1/2, 1, 1, 0, 3, 5, 0, 1/20, 1/2⟩ envObserve sqrtZero "A"
      ([(10, [-5]), (10, [-5])] ++ [(10, [10])]) ⟨0, 0, 0⟩).1.fail_count = 0 :=
  (hysteresis_no_premature_disable ⟨1/2, 1, 1, 0, 3, 5, 0, 1/20, 1/2⟩
    envObserve sqrtZero "A" [(10, [-5]), (10, [-5])] (10, [10]) ⟨0, 0, 0⟩
    (by decide) (by decide)
    (by
      intro i hi
      rcases (by simpa using hi : i = (10, [-5]) ∨ i = (10, [-5])) with rfl | rfl <;>
        norm_num [signalFailing, survivalOf, edgeOf, mean, compute_confidence,
          sqrtZero])
    (by norm_num [signalFailing, survivalOf, edgeOf, mean, compute_confidence,
      sqrtZero])
    rfl (Or.inl (by decide))).2

/-! ### Analyze-level lemmas -/

theorem enablePhase_observe_writes (cfg : Config) (wf : Bool) (sym : String)
    (conf : ℚ) (count : Nat) (s : SymState) :
    (enablePhase cfg ⟨Mode.OBSERVE, wf⟩ sym conf count s).writes = [] := by
  unfold enablePhase
  split
  · rw [emit_observe_eq]
  · rfl

theorem disablePhase_observe_writes (cfg : Config) (wf : Bool) (sym : String)
    (survival conf : ℚ) (count : Nat) (s : SymState) :
    (disablePhase cfg ⟨Mode.OBSERVE, wf⟩ sym survival conf count s).writes = [] := by
  unfold disablePhase
  split
  · rw [emit_observe_eq]
    simp [enablePhase_observe_writes]
  · exact enablePhase_observe_writes cfg wf sym conf count s

theorem stepSym_observe_writes (cfg : Config) (wf : Bool) (sqrtQ : ℚ → ℚ)
    (count : Nat) (sym : String) (pnls : List ℚ) (s : SymState) :
    (stepSym cfg ⟨Mode.OBSERVE, wf⟩ sqrtQ count sym pnls s).writes = [] := by
  by_cases hca : (cfg.cooldown_trades : Int) ≤ (count : Int) - (s.last_action : Int)
  · rw [stepSym_eq_of_can_act cfg ⟨Mode.OBSERVE, wf⟩ sqrtQ count sym pnls s hca]
    exact disablePhase_observe_writes cfg wf sym _ _ count _
  · rw [stepSym_eq_of_not_can_act cfg ⟨Mode.OBSERVE, wf⟩ sqrtQ count sym pnls s hca]

theorem runBuckets_observe_writes (cfg : Config) (wf : Bool) (sqrtQ : ℚ → ℚ)
    (count : Nat) (bs : List (String × List ℚ)) (g : GovState) :
    (runBuckets cfg ⟨Mode.OBSERVE, wf⟩ sqrtQ count bs g).writes = [] := by
  induction bs generalizing g with
  | nil => rfl
  | cons b rest ih =>
    rcases b with ⟨sym, pnls⟩
    simp only [runBuckets]
    split
    · exact stepSym_observe_writes cfg wf sqrtQ count sym pnls _
    · rw [stepSym_observe_writes cfg wf sqrtQ count sym pnls _, ih, List.nil_append]

/-- C8: in OBSERVE mode a tick never writes the command-log file, no
matter how many DISABLE or ENABLE decisions it produces and whether the
file would even accept a write. -/
theorem observe_mode_never_writes (cfg : Config) (wf : Bool) (sqrtQ : ℚ → ℚ)
    (src : Option (List RawTrade)) (g : GovState) :
    (analyze cfg ⟨Mode.OBSERVE, wf⟩ sqrtQ src g).writes = [] := by
  simp only [analyze]
  split
  · rfl
  · split
    · rfl
    · exact runBuckets_observe_writes cfg wf sqrtQ _ _ g

/-- C2 (amended): a tick with fewer total records than the window size
mutates no counters or snapshot state, emits no command and raises no
error — but the websocket loop still broadcasts the (unchanged)
snapshot to every subscriber. -/
theorem short_window_skip_amended (cfg : Config) (env : Env) (sqrtQ : ℚ → ℚ)
    (src : Option (List RawTrade)) (clients : List String) (g : GovState)
    (h : (load_trades src).length < cfg.window) :
    analyze cfg env sqrtQ src g = ⟨g, [], [], false⟩ ∧
    (wsTick cfg env sqrtQ src clients g).g = g ∧
    (wsTick cfg env sqrtQ src clients g).continues = true ∧
    (wsTick cfg env sqrtQ src clients g).msgs =
      clients.map (fun c => (c, env.mode, g.state)) := by
  have ha : analyze cfg env sqrtQ src g = ⟨g, [], [], false⟩ := by
    unfold analyze
    rw [if_pos h]
  refine ⟨ha, ?_, ?_, ?_⟩ <;> simp [wsTick, ha]

/-- C2 witness: one record against window 5 — skip, no error, loop
continues. -/
theorem short_window_skip_amended_witness :
    analyze ⟨1/2, 1, 5, 0, 3, 5, 0, 1/20, 1/2⟩ envObserve sqrtZero
      (some [⟨"A", some 1⟩]) initialGov = ⟨initialGov, [], [], false⟩ ∧
    (wsTick ⟨1/2, 1, 5, 0, 3, 5, 0, 1/20, 1/2⟩ envObserve sqrtZero
      (some [⟨"A", some 1⟩]) ["c1"] initialGov).continues = true :=
  ⟨(short_window_skip_amended _ _ _ _ ["c1"] _ (by simp [load_trades])).1,
   (short_window_skip_amended _ _ _ _ ["c1"] _ (by simp [load_trades])).2.2.1⟩

/-- C2 counterexample: on a skipped tick (1 record, window 5) the
websocket loop still delivers one snapshot message to the connected
subscriber — refuting "no snapshot is broadcast to subscribers". -/
theorem skip_tick_still_broadcasts_counterexample :
    (load_trades (some [⟨"A", some 1⟩])).length <
      (⟨1/2, 1, 5, 0, 3, 5, 0, 1/20, 1/2⟩ : Config).window ∧
    (wsTick ⟨1/2, 1, 5, 0, 3, 5, 0, 1/20, 1/2⟩ envObserve sqrtZero
      (some [⟨"A", some 1⟩]) ["c1"] initialGov).msgs.length = 1 := by
  constructor
  · simp [load_trades]
  · simp [wsTick, analyze, load_trades]

/-- C4 (amended): when the record-source read fails the tick degrades to
zero records and is skipped without mutation or error (for any window
size).  The "malformed records" half of the claim is refuted separately:
an unparsable `total_pnl` raises instead of degrading. -/
theorem source_unavailable_skip_amended (cfg : Config) (env : Env)
    (sqrtQ : ℚ → ℚ) (g : GovState) :
    analyze cfg env sqrtQ none g = ⟨g, [], [], false⟩ := by
  unfold analyze
  by_cases h : (load_trades none).length < cfg.window
  · rw [if_pos h]
  · rw [if_neg h]
    simp [load_trades, List.drop_nil, buildBuckets, runBuckets]

/-- C4 counterexample: a record whose `total_pnl` is missing or
non-numeric makes the tick raise (`float(...)` fails inside `analyze`)
— the websocket loop catches it, skips the broadcast and exits — rather
than degrading to zero records. -/
theorem malformed_pnl_raises_counterexample :
    (analyze ⟨1/2, 1, 1, 0, 3, 5, 0, 1/20, 1/2⟩ envObserve sqrtZero
      (some [⟨"A", none⟩]) initialGov).err = true ∧
    (wsTick ⟨1/2, 1, 1, 0, 3, 5, 0, 1/20, 1/2⟩ envObserve sqrtZero
      (some [⟨"A", none⟩]) ["c1"] initialGov).continues = false ∧
    (wsTick ⟨1/2, 1, 1, 0, 3, 5, 0, 1/20, 1/2⟩ envObserve sqrtZero
      (some [⟨"A", none⟩]) ["c1"] initialGov).msgs = [] := by
  refine ⟨?_, ?_, ?_⟩ <;>
    simp [analyze, wsTick, load_trades, buildBuckets]

/-- C3 (amended): an error raised while evaluating one symbol (such as a
command-log append failure in ADVISE or ACT mode) aborts the tick at
that symbol: the symbols after it in bucket order are not evaluated —
their counters and snapshot entries are untouched — and the exception
propagates out of `analyze` (it is surfaced, not swallowed), which makes
the websocket handler skip the broadcast and end that connection's
control loop. -/
theorem symbol_error_aborts_tick_amended (cfg : Config) (env : Env)
    (sqrtQ : ℚ → ℚ) (count : Nat) (sym : String) (pnls : List ℚ)
    (rest : List (String × List ℚ)) (g : GovState)
    (herr : (stepSym cfg env sqrtQ count sym pnls (symStateOf g sym)).err = true) :
    (runBuckets cfg env sqrtQ count ((sym, pnls) :: rest) g).err = true ∧
    (∀ x, x ≠ sym →
      (runBuckets cfg env sqrtQ count ((sym, pnls) :: rest) g).g.fail_counts x =
        g.fail_counts x ∧
      (runBuckets cfg env sqrtQ count ((sym, pnls) :: rest) g).g.pass_counts x =
        g.pass_counts x ∧
      (runBuckets cfg env sqrtQ count ((sym, pnls) :: rest) g).g.last_action_trade x =
        g.last_action_trade x ∧
      (runBuckets cfg env sqrtQ count ((sym, pnls) :: rest) g).g.state x =
        g.state x) ∧
    (∀ src clients g2, (analyze cfg env sqrtQ src g2).err = true →
      (wsTick cfg env sqrtQ src clients g2).msgs = [] ∧
      (wsTick cfg env sqrtQ src clients g2).continues = false) := by
  refine ⟨?_, ?_, ?_⟩
  · simp [runBuckets, herr]
  · intro x hx
    simp only [runBuckets, herr, if_true]
    exact ⟨by simp [updateGov, hx], by simp [updateGov, hx],
      by simp [updateGov, hx], by simp [updateGov, hx]⟩
  · intro src clients g2 he
    constructor <;> simp [wsTick, he]

/-- C3 witness: with an unwritable command file in ACT mode, symbol A's
DISABLE emit raises, and symbol B later in the same bucket list keeps
its prior (absent) snapshot entry. -/
theorem symbol_error_aborts_tick_amended_witness :
    (runBuckets ⟨1/2, 1, 2, 0, 1, 5, 0, 1/20, 1/2⟩ ⟨Mode.ACT, true⟩ sqrtZero 2
      [("A", [-5]), ("B", [-5])] initialGov).err = true ∧
    (runBuckets ⟨1/2, 1, 2, 0, 1, 5, 0, 1/20, 1/2⟩ ⟨Mode.ACT, true⟩ sqrtZero 2
      [("A", [-5]), ("B", [-5])] initialGov).g.state "B" =
      initialGov.state "B" := by
  have h := symbol_error_aborts_tick_amended ⟨1/2, 1, 2, 0, 1, 5, 0, 1/20, 1/2⟩
    ⟨Mode.ACT, true⟩ sqrtZero 2 "A" [-5] [("B", [-5])] initialGov
    (by norm_num [stepSym, step1, signalFailing, survivalOf, edgeOf, mean,
      compute_confidence, disablePhase, enablePhase, emit, symStateOf,
      initialGov, sqrtZero])
  exact ⟨h.1, (h.2.1 "B" (by decide)).2.2.2⟩

/-- C3 counterexample: two symbols share the window; A's command-log
append fails in ACT mode, A's counters stay mutated, but B is never
evaluated in that tick (no snapshot entry, counters still zero) and the
loop stops — refuting "an error in one symbol does not prevent the
evaluation of the other symbols and does not stop the control loop". -/
theorem symbol_error_isolation_counterexample :
    (analyze ⟨1/2, 1, 2, 0, 1, 5, 0, 1/20, 1/2⟩ ⟨Mode.ACT, true⟩ sqrtZero
      (some [⟨"A", some (-5)⟩, ⟨"B", some (-5)⟩]) initialGov).err = true ∧
    (analyze ⟨1/2, 1, 2, 0, 1, 5, 0, 1/20, 1/2⟩ ⟨Mode.ACT, true⟩ sqrtZero
      (some [⟨"A", some (-5)⟩, ⟨"B", some (-5)⟩]) initialGov).g.fail_counts "A" = 1 ∧
    (analyze ⟨1/2, 1, 2, 0, 1, 5, 0, 1/20, 1/2⟩ ⟨Mode.ACT, true⟩ sqrtZero
      (some [⟨"A", some (-5)⟩, ⟨"B", some (-5)⟩]) initialGov).g.state "A" ≠ none ∧
    (analyze ⟨1/2, 1, 2, 0, 1, 5, 0, 1/20, 1/2⟩ ⟨Mode.ACT, true⟩ sqrtZero
      (some [⟨"A", some (-5)⟩, ⟨"B", some (-5)⟩]) initialGov).g.state "B" = none ∧
    (analyze ⟨1/2, 1, 2, 0, 1, 5, 0, 1/20, 1/2⟩ ⟨Mode.ACT, true⟩ sqrtZero
      (some [⟨"A", some (-5)⟩, ⟨"B", some (-5)⟩]) initialGov).g.fail_counts "B" = 0 ∧
    (wsTick ⟨1/2, 1, 2, 0, 1, 5, 0, 1/20, 1/2⟩ ⟨Mode.ACT, true⟩ sqrtZero
      (some [⟨"A", some (-5)⟩, ⟨"B", some (-5)⟩]) ["c1"] initialGov).continues =
      false := by
  norm_num [analyze, wsTick, load_trades, buildBuckets, addToBucket, runBuckets,
    stepSym, snapOf, step1, signalFailing, survivalOf, edgeOf, mean,
    compute_confidence, round4, disablePhase, enablePhase, emit, updateGov,
    symStateOf, initialGov, sqrtZero]
  exact ⟨Option.some_ne_none _, fun h => absurd h (by decide), by decide⟩
